import Mathlib

/-!
Verification of the machine-claimer orchestrator core: a shallow embedding
of the lease-allocation and capacity-control logic of the
`aws-machine-claimer` backend (`src/index.ts`).  Worker records live in a
DynamoDB table keyed by `instanceId`; we model the table as a list of records
(scan order = list order), DynamoDB `PutCommand` as a whole-item replace and
`UpdateCommand` as an upsert that sets only the mentioned attributes
(creating the item when the key is absent).  A conditional update
(`ConditionExpression`) applies iff the condition holds on the current item
and fails — changing nothing — otherwise, including when the item is absent.
Timestamps are integers (milliseconds, JS `Date.now()`).
-/

set_option autoImplicit false

namespace MachineClaimer

/-- Worker status attribute values used by the service. -/
inductive WStatus where
  | available
  | leased
deriving DecidableEq, Repr

/-- A DynamoDB item of the `machine_pool` table.  DynamoDB is schemaless, so
every non-key attribute is optional: `none` stands for "absent or null".
(`/register` writes all attributes, but the upsert paths of `/heartbeat` and
`/release` create items with only some of them.) -/
structure WorkerRecord where
  instanceId : String
  publicIp : Option String := none
  privateIp : Option String := none
  status : Option WStatus := none
  lastHeartbeat : Option Int := none
  userId : Option String := none
  leaseExpiry : Option Int := none
deriving DecidableEq, Repr

/-- The worker-pool table: items in scan order. -/
abbrev Store := List WorkerRecord

/-- Key lookup: the item with the given `instanceId`, if any. -/
def findRec (s : Store) (id : String) : Option WorkerRecord :=
  s.find? (fun r => r.instanceId = id)

/-- Apply `f` to the item with the given key, leaving all other items as they
are (DynamoDB `UpdateCommand` on an existing item). -/
def updateRec (s : Store) (id : String) (f : WorkerRecord → WorkerRecord) : Store :=
  s.map (fun r => if r.instanceId = id then f r else r)

/-- DynamoDB `PutCommand`: replace the whole item under the key, or add it. -/
def putRec (s : Store) (r : WorkerRecord) : Store :=
  if s.any (fun x => x.instanceId = r.instanceId) then
    s.map (fun x => if x.instanceId = r.instanceId then r else x)
  else
    s ++ [r]

/-- `status` of the item under the key (`none` if the item or attribute is
absent). -/
def statusOf (s : Store) (id : String) : Option WStatus :=
  (findRec s id).bind (fun r => r.status)

-- ========= CONFIG (index.ts lines 233-238) =========

/-- `LEASE_TTL_MS = 10 * 60 * 1000` — 10 min. -/
def LEASE_TTL_MS : Int := 10 * 60 * 1000

/-- `HEARTBEAT_MAX_AGE_MS = 60 * 1000` — no heartbeat in 60s ⇒ unhealthy. -/
def HEARTBEAT_MAX_AGE_MS : Int := 60 * 1000

/-- `SCALE_COOLDOWN_MS = 30 * 1000` — 30 seconds. -/
def SCALE_COOLDOWN_MS : Int := 30 * 1000

-- ========= HEALTH FILTER =========

/-- The staleness check on one scanned item:
`(now() - (m.lastHeartbeat || 0)) <= HEARTBEAT_MAX_AGE_MS`. -/
def isHealthy (r : WorkerRecord) (t : Int) : Bool :=
  decide (t - (r.lastHeartbeat.getD 0) ≤ HEARTBEAT_MAX_AGE_MS)

/-- The scan with `FilterExpression "#s = :available"` followed by the
staleness filter — the claim-candidate list, in scan order. -/
def healthyAvailable (s : Store) (t : Int) : Store :=
  (s.filter (fun r => decide (r.status = some WStatus.available))).filter
    (fun r => isHealthy r t)

/-- `countAvailableWorkers` (index.ts lines 249-263). -/
def countAvailableWorkers (s : Store) (t : Int) : Nat :=
  (healthyAvailable s t).length

-- ========= CAPACITY CONTROLLER =========

/-- What the ASG reports for the group: `DesiredCapacity` and `MaxSize`
(both may be absent on the wire, hence the `?? 0` / `?? desired` fallbacks
in the code). -/
structure AsgGroup where
  desiredCapacity : Option Int := none
  maxSize : Option Int := none
deriving DecidableEq, Repr

/-- Calls made to the AutoScaling API. -/
inductive FleetCall where
  | describeGroups
  | setDesiredCapacity (n : Int)
deriving DecidableEq, Repr

/-- The JSON object `scaleToMeetBuffer` resolves with; constructors are the
four `reason` values (`cooldown_active`, `buffer_satisfied`,
`ASG at max capacity`, `scaled_to_meet_buffer`). -/
inductive ScaleResult where
  | cooldownActive (retryAfterMs : Int)
  | bufferSatisfied (availableNow targetAvailable : Int)
  | atMaxCapacity (desired mx missing availableNow targetAvailable : Int)
  | scaledToMeetBuffer (availableNow targetAvailable missing desiredBefore desiredAfter : Int)
deriving DecidableEq, Repr

/-- The `scaled` field of the result object: `true` only on the
`scaled_to_meet_buffer` outcome. -/
def ScaleResult.isScaled : ScaleResult → Bool
  | .scaledToMeetBuffer _ _ _ _ _ => true
  | _ => false

/-- Full effect of one `scaleToMeetBuffer()` call: resolved value or thrown
error, the `lastScaleOutAt` module variable afterwards, and the AutoScaling
API calls made. -/
instance : DecidableEq (Except String ScaleResult) := fun a b =>
  match a, b with
  | .ok x, .ok y => decidable_of_iff (x = y) (by simp)
  | .error x, .error y => decidable_of_iff (x = y) (by simp)
  | .ok _, .error _ => .isFalse (by simp)
  | .error _, .ok _ => .isFalse (by simp)

structure ScaleStep where
  result : Except String ScaleResult
  lastScaleOutAt : Int
  calls : List FleetCall
deriving DecidableEq, Repr

/-- `scaleToMeetBuffer` (index.ts lines 265-333).  `target` is the
`TARGET_AVAILABLE` config, `group?` is `resp.AutoScalingGroups?.[0]`,
`last` the `lastScaleOutAt` variable on entry, `t` the call time `now()`. -/
def scaleToMeetBuffer (target : Int) (group? : Option AsgGroup) (s : Store)
    (last t : Int) : ScaleStep :=
  if t < last + SCALE_COOLDOWN_MS then
    ⟨.ok (.cooldownActive (SCALE_COOLDOWN_MS - (t - last))), last, []⟩
  else
    let availableNow : Int := (countAvailableWorkers s t : Int)
    let missing := target - availableNow
    if missing ≤ 0 then
      ⟨.ok (.bufferSatisfied availableNow target), last, []⟩
    else
      match group? with
      | none => ⟨.error "ASG not found", last, [.describeGroups]⟩
      | some g =>
        let desired := g.desiredCapacity.getD 0
        let mx := g.maxSize.getD desired
        let desiredAfter := min (desired + missing) mx
        if desiredAfter = desired then
          ⟨.ok (.atMaxCapacity desired mx missing availableNow target), last,
            [.describeGroups]⟩
        else
          ⟨.ok (.scaledToMeetBuffer availableNow target missing desired desiredAfter), t,
            [.describeGroups, .setDesiredCapacity desiredAfter]⟩

-- ========= WORKER STORE OPERATIONS =========

/-- Simple success/validation responses of the register/heartbeat/release
routes. -/
inductive SimpleResponse where
  | ok
  | validationError
deriving DecidableEq, Repr

/-- The item `/register` puts: all attributes written, `status = available`,
fresh heartbeat, lease fields null.  `publicIp || null` maps the empty
string (falsy) to null as well. -/
def registerRecord (id : String) (pub priv : Option String) (t : Int) : WorkerRecord :=
  { instanceId := id
    publicIp := if pub = some "" then none else pub
    privateIp := if priv = some "" then none else priv
    status := some .available
    lastHeartbeat := some t
    userId := none
    leaseExpiry := none }

/-- `POST /register` (index.ts lines 338-364). -/
def registerHandler (s : Store) (id : String) (pub priv : Option String)
    (t : Int) : SimpleResponse × Store :=
  if id = "" then (.validationError, s)
  else (.ok, putRec s (registerRecord id pub priv t))

/-- Effect of the heartbeat `UpdateCommand` (`SET lastHeartbeat = :t`, no
condition): update the attribute when the item exists, otherwise create an
item holding only the key and `lastHeartbeat`. -/
def heartbeatOp (s : Store) (id : String) (t : Int) : Store :=
  match findRec s id with
  | some _ => updateRec s id (fun r => { r with lastHeartbeat := some t })
  | none => s ++ [{ instanceId := id, lastHeartbeat := some t }]

/-- `POST /heartbeat` (index.ts lines 367-388). -/
def heartbeatHandler (s : Store) (id : String) (t : Int) : SimpleResponse × Store :=
  if id = "" then (.validationError, s)
  else (.ok, heartbeatOp s id t)

/-- Field update of the release `UpdateCommand`:
`SET #s = :available, userId = :null, leaseExpiry = :null`. -/
def releaseFields (r : WorkerRecord) : WorkerRecord :=
  { r with status := some .available, userId := none, leaseExpiry := none }

/-- The item the release upsert creates when the key is absent: only the key
and the three SET attributes. -/
def releaseUpsertRecord (id : String) : WorkerRecord :=
  { instanceId := id, status := some .available, userId := none, leaseExpiry := none }

/-- Effect of the release `UpdateCommand` (no condition): upsert. -/
def releaseOp (s : Store) (id : String) : Store :=
  match findRec s id with
  | some _ => updateRec s id releaseFields
  | none => s ++ [releaseUpsertRecord id]

/-- `POST /release` (index.ts lines 466-489). -/
def releaseHandler (s : Store) (id : String) : SimpleResponse × Store :=
  if id = "" then (.validationError, s)
  else (.ok, releaseOp s id)

-- ========= LEASE ALLOCATOR =========

/-- The lease attributes the claim update sets:
`SET #s = :leased, userId = :u, leaseExpiry = :e`. -/
def leaseFields (u : String) (e : Int) (r : WorkerRecord) : WorkerRecord :=
  { r with status := some .leased, userId := some u, leaseExpiry := some e }

/-- The conditional-update primitive (spec: `tryTransition`): apply `f` to
the item under `id` iff its current `status` equals `expected`; otherwise
(wrong status, missing attribute, or missing item) fail with
`ConditionalCheckFailed` and change nothing.  This models the claim
`UpdateCommand` with `ConditionExpression "#s = :available"`
(index.ts lines 426-440). -/
def tryTransition (s : Store) (id : String) (expected : WStatus)
    (f : WorkerRecord → WorkerRecord) : Except Unit Store :=
  match findRec s id with
  | some r => if r.status = some expected then .ok (updateRec s id f) else .error ()
  | none => .error ()

/-- `connectionHint` of the claim response: `chosen.publicIp ? ... : ...`,
where JS truthiness makes both null and the empty string take the fallback. -/
def connectionHint : Option String → String
  | some ip =>
    if ip = "" then "No public IP. Use SSM in next version."
    else "http://" ++ ip ++ ":8080"
  | none => "No public IP. Use SSM in next version."

/-- The response bodies of the claim route, one constructor per `res.status`/shape
pair. -/
inductive ClaimResponse where
  | validationError
  | pending (scaleInfo : ScaleResult)
  | claimed (instanceId : String) (publicIp privateIp : Option String)
      (leaseExpiry : Int) (hint : String)
  | conflict
  | internalError
deriving DecidableEq, Repr

/-- HTTP status code of each claim response. -/
def ClaimResponse.httpStatus : ClaimResponse → Nat
  | .validationError => 400
  | .pending _ => 202
  | .claimed _ _ _ _ _ => 200
  | .conflict => 409
  | .internalError => 500

/-- Full effect of one `/claim` request. -/
structure ClaimStep where
  resp : ClaimResponse
  store : Store
  lastScaleOutAt : Int
deriving DecidableEq, Repr

/-- `POST /claim` (index.ts lines 391-463).  `sScan` is the table as seen by
the scan, `sWrite` the table at the time of the conditional update — they
differ exactly when a concurrent writer moved between the two; a sequential
run passes the same store twice.  On `ConditionalCheckFailed` the route
answers 409 and the update changed nothing. -/
def claimHandler (target : Int) (group? : Option AsgGroup) (sScan sWrite : Store)
    (last : Int) (u : String) (t : Int) : ClaimStep :=
  if u = "" then ⟨.validationError, sWrite, last⟩
  else
    match healthyAvailable sScan t with
    | [] =>
      let st := scaleToMeetBuffer target group? sScan last t
      match st.result with
      | .ok info => ⟨.pending info, sWrite, st.lastScaleOutAt⟩
      | .error _ => ⟨.internalError, sWrite, st.lastScaleOutAt⟩
    | chosen :: _ =>
      let expiry := t + LEASE_TTL_MS
      match tryTransition sWrite chosen.instanceId .available (leaseFields u expiry) with
      | .ok s2 =>
        ⟨.claimed chosen.instanceId chosen.publicIp chosen.privateIp expiry
          (connectionHint chosen.publicIp), s2, last⟩
      | .error _ => ⟨.conflict, sWrite, last⟩

-- ========= STORE LEMMAS =========

theorem findRec_cons (r : WorkerRecord) (s : Store) (id : String) :
    findRec (r :: s) id = if r.instanceId = id then some r else findRec s id := by
  by_cases h : r.instanceId = id <;> simp [findRec, h]

theorem findRec_eq_none_iff (s : Store) (id : String) :
    findRec s id = none ↔ ∀ x ∈ s, x.instanceId ≠ id := by
  simp [findRec, List.find?_eq_none]

theorem findRec_updateRec_self (s : Store) (id : String) (f : WorkerRecord → WorkerRecord)
    (hf : ∀ r, r.instanceId = id → (f r).instanceId = id) :
    findRec (updateRec s id f) id = (findRec s id).map f := by
  induction s with
  | nil => simp [updateRec, findRec]
  | cons a s ih =>
    by_cases ha : a.instanceId = id
    · simp only [updateRec, List.map_cons, if_pos ha]
      rw [findRec_cons, findRec_cons, if_pos (hf a ha), if_pos ha, Option.map_some']
    · simp only [updateRec, List.map_cons, if_neg ha]
      rw [findRec_cons, findRec_cons, if_neg ha, if_neg ha]
      exact ih

theorem findRec_updateRec_ne (s : Store) (id j : String) (f : WorkerRecord → WorkerRecord)
    (hf : ∀ r, r.instanceId = id → (f r).instanceId = id) (hj : j ≠ id) :
    findRec (updateRec s id f) j = findRec s j := by
  induction s with
  | nil => simp [updateRec, findRec]
  | cons a s ih =>
    by_cases ha : a.instanceId = id
    · simp only [updateRec, List.map_cons, if_pos ha]
      rw [findRec_cons, findRec_cons]
      have h1 : (f a).instanceId ≠ j := by rw [hf a ha]; exact fun h => hj h.symm
      have h2 : a.instanceId ≠ j := by rw [ha]; exact fun h => hj h.symm
      rw [if_neg h1, if_neg h2]
      exact ih
    · simp only [updateRec, List.map_cons, if_neg ha]
      rw [findRec_cons, findRec_cons]
      by_cases haj : a.instanceId = j
      · rw [if_pos haj, if_pos haj]
      · rw [if_neg haj, if_neg haj]
        exact ih

theorem findRec_append_of_none (s : Store) (l : Store) (j : String)
    (h : findRec s j = none) : findRec (s ++ l) j = findRec l j := by
  simp only [findRec] at *
  rw [List.find?_append, h, Option.none_or]

theorem findRec_append_of_ne (s : Store) (r : WorkerRecord) (j : String)
    (hne : r.instanceId ≠ j) : findRec (s ++ [r]) j = findRec s j := by
  simp only [findRec]
  rw [List.find?_append]
  have : List.find? (fun x => x.instanceId = j) [r] = none := by simp [hne]
  rw [this]
  cases List.find? (fun x => x.instanceId = j) s <;> rfl

theorem findRec_isSome_of_any (s : Store) (id : String)
    (h : s.any (fun x => x.instanceId = id) = true) :
    ∃ r, findRec s id = some r := by
  rcases List.any_eq_true.mp h with ⟨x, hx, hxid⟩
  cases hfind : findRec s id with
  | some r => exact ⟨r, rfl⟩
  | none =>
    exact absurd (of_decide_eq_true hxid) ((findRec_eq_none_iff s id).mp hfind x hx)

theorem findRec_putRec_self (s : Store) (r : WorkerRecord) :
    findRec (putRec s r) r.instanceId = some r := by
  unfold putRec
  by_cases hany : s.any (fun x => x.instanceId = r.instanceId) = true
  · rw [if_pos hany]
    have heq : s.map (fun x => if x.instanceId = r.instanceId then r else x) =
        updateRec s r.instanceId (fun _ => r) := rfl
    rw [heq, findRec_updateRec_self s r.instanceId (fun _ => r) (fun _ _ => rfl)]
    rcases findRec_isSome_of_any s r.instanceId hany with ⟨x, hx⟩
    rw [hx, Option.map_some']
  · rw [if_neg hany]
    have hnone : findRec s r.instanceId = none := by
      rw [findRec_eq_none_iff]
      intro x hx hxid
      exact hany (List.any_eq_true.mpr ⟨x, hx, decide_eq_true hxid⟩)
    rw [findRec_append_of_none s [r] r.instanceId hnone, findRec_cons,
      if_pos rfl]

theorem findRec_putRec_ne (s : Store) (r : WorkerRecord) (j : String)
    (hj : j ≠ r.instanceId) : findRec (putRec s r) j = findRec s j := by
  unfold putRec
  by_cases hany : s.any (fun x => x.instanceId = r.instanceId) = true
  · rw [if_pos hany]
    have heq : s.map (fun x => if x.instanceId = r.instanceId then r else x) =
        updateRec s r.instanceId (fun _ => r) := rfl
    rw [heq, findRec_updateRec_ne s r.instanceId j (fun _ => r) (fun _ _ => rfl) hj]
  · rw [if_neg hany]
    exact findRec_append_of_ne s r j (fun h => hj h.symm)

theorem findRec_eq_of_mem_nodup {s : Store} {r : WorkerRecord}
    (hkeys : (s.map WorkerRecord.instanceId).Nodup) (hmem : r ∈ s) :
    findRec s r.instanceId = some r := by
  induction s with
  | nil => cases hmem
  | cons a s ih =>
    rw [List.map_cons, List.nodup_cons] at hkeys
    rw [findRec_cons]
    by_cases h : a.instanceId = r.instanceId
    · rcases List.mem_cons.mp hmem with rfl | hmem'
      · rw [if_pos rfl]
      · exact absurd (h ▸ List.mem_map_of_mem WorkerRecord.instanceId hmem') hkeys.1
    · rcases List.mem_cons.mp hmem with rfl | hmem'
      · exact absurd rfl h
      · rw [if_neg h]
        exact ih hkeys.2 hmem'

theorem updateRec_eq_self (s : Store) (id : String) (f : WorkerRecord → WorkerRecord)
    (h : ∀ x ∈ s, x.instanceId = id → f x = x) : updateRec s id f = s := by
  unfold updateRec
  have : ∀ x ∈ s, (if x.instanceId = id then f x else x) = x := by
    intro x hx
    by_cases hxi : x.instanceId = id
    · simp [hxi, h x hx hxi]
    · simp [hxi]
  rw [List.map_congr_left this, List.map_id']

-- ========= CONTROLLER BRANCH LEMMAS =========

theorem scale_eq_cooldown (target : Int) (g : Option AsgGroup) (s : Store) (last t : Int)
    (h : t < last + SCALE_COOLDOWN_MS) :
    scaleToMeetBuffer target g s last t =
      ⟨.ok (.cooldownActive (SCALE_COOLDOWN_MS - (t - last))), last, []⟩ := by
  simp only [scaleToMeetBuffer, if_pos h]

theorem scale_eq_satisfied (target : Int) (g : Option AsgGroup) (s : Store) (last t : Int)
    (h1 : ¬ t < last + SCALE_COOLDOWN_MS)
    (h2 : target - (countAvailableWorkers s t : Int) ≤ 0) :
    scaleToMeetBuffer target g s last t =
      ⟨.ok (.bufferSatisfied (countAvailableWorkers s t : Int) target), last, []⟩ := by
  simp only [scaleToMeetBuffer, if_neg h1, if_pos h2]

theorem scale_eq_noGroup (target : Int) (s : Store) (last t : Int)
    (h1 : ¬ t < last + SCALE_COOLDOWN_MS)
    (h2 : ¬ target - (countAvailableWorkers s t : Int) ≤ 0) :
    scaleToMeetBuffer target none s last t =
      ⟨.error "ASG not found", last, [.describeGroups]⟩ := by
  simp only [scaleToMeetBuffer, if_neg h1, if_neg h2]

theorem scale_eq_atMax (target : Int) (g : AsgGroup) (s : Store) (last t : Int)
    (h1 : ¬ t < last + SCALE_COOLDOWN_MS)
    (h2 : ¬ target - (countAvailableWorkers s t : Int) ≤ 0)
    (h3 : min (g.desiredCapacity.getD 0 + (target - (countAvailableWorkers s t : Int)))
      (g.maxSize.getD (g.desiredCapacity.getD 0)) = g.desiredCapacity.getD 0) :
    scaleToMeetBuffer target (some g) s last t =
      ⟨.ok (.atMaxCapacity (g.desiredCapacity.getD 0)
        (g.maxSize.getD (g.desiredCapacity.getD 0))
        (target - (countAvailableWorkers s t : Int))
        (countAvailableWorkers s t : Int) target), last, [.describeGroups]⟩ := by
  simp only [scaleToMeetBuffer, if_neg h1, if_neg h2, if_pos h3]

theorem scale_eq_scaled (target : Int) (g : AsgGroup) (s : Store) (last t : Int)
    (h1 : ¬ t < last + SCALE_COOLDOWN_MS)
    (h2 : ¬ target - (countAvailableWorkers s t : Int) ≤ 0)
    (h3 : ¬ min (g.desiredCapacity.getD 0 + (target - (countAvailableWorkers s t : Int)))
      (g.maxSize.getD (g.desiredCapacity.getD 0)) = g.desiredCapacity.getD 0) :
    scaleToMeetBuffer target (some g) s last t =
      ⟨.ok (.scaledToMeetBuffer (countAvailableWorkers s t : Int) target
        (target - (countAvailableWorkers s t : Int))
        (g.desiredCapacity.getD 0)
        (min (g.desiredCapacity.getD 0 + (target - (countAvailableWorkers s t : Int)))
          (g.maxSize.getD (g.desiredCapacity.getD 0)))), t,
        [.describeGroups, .setDesiredCapacity
          (min (g.desiredCapacity.getD 0 + (target - (countAvailableWorkers s t : Int)))
            (g.maxSize.getD (g.desiredCapacity.getD 0)))]⟩ := by
  simp only [scaleToMeetBuffer, if_neg h1, if_neg h2, if_neg h3]

/-- Exhaustive case analysis of one `scaleToMeetBuffer()` call: it ends in
exactly one of the five branches, and only the scaled branch moves
`lastScaleOutAt` (to `t`) or calls `SetDesiredCapacity`. -/
theorem scale_result_cases (target : Int) (g : Option AsgGroup) (s : Store) (last t : Int) :
    (∃ ra, scaleToMeetBuffer target g s last t = ⟨.ok (.cooldownActive ra), last, []⟩) ∨
    (∃ a tg, scaleToMeetBuffer target g s last t = ⟨.ok (.bufferSatisfied a tg), last, []⟩) ∨
    (∃ e, scaleToMeetBuffer target g s last t = ⟨.error e, last, [.describeGroups]⟩) ∨
    (∃ d m mi a tg, scaleToMeetBuffer target g s last t =
      ⟨.ok (.atMaxCapacity d m mi a tg), last, [.describeGroups]⟩) ∨
    (∃ a tg mi d da, scaleToMeetBuffer target g s last t =
      ⟨.ok (.scaledToMeetBuffer a tg mi d da), t,
        [.describeGroups, .setDesiredCapacity da]⟩) := by
  by_cases h1 : t < last + SCALE_COOLDOWN_MS
  · exact Or.inl ⟨_, scale_eq_cooldown target g s last t h1⟩
  · by_cases h2 : target - (countAvailableWorkers s t : Int) ≤ 0
    · exact Or.inr (Or.inl ⟨_, _, scale_eq_satisfied target g s last t h1 h2⟩)
    · cases g with
      | none => exact Or.inr (Or.inr (Or.inl ⟨_, scale_eq_noGroup target s last t h1 h2⟩))
      | some gr =>
        by_cases h3 : min (gr.desiredCapacity.getD 0 +
            (target - (countAvailableWorkers s t : Int)))
            (gr.maxSize.getD (gr.desiredCapacity.getD 0)) = gr.desiredCapacity.getD 0
        · exact Or.inr (Or.inr (Or.inr (Or.inl
            ⟨_, _, _, _, _, scale_eq_atMax target gr s last t h1 h2 h3⟩)))
        · exact Or.inr (Or.inr (Or.inr (Or.inr
            ⟨_, _, _, _, _, scale_eq_scaled target gr s last t h1 h2 h3⟩)))

/-- On a `scaled:true` outcome the returned `lastScaleOutAt` is the call
time. -/
theorem scale_isScaled_last (target : Int) (g : Option AsgGroup) (s : Store)
    (last t last2 : Int) (res : ScaleResult) (calls : List FleetCall)
    (h : scaleToMeetBuffer target g s last t = ⟨.ok res, last2, calls⟩)
    (hs : res.isScaled = true) : last2 = t := by
  rcases scale_result_cases target g s last t with ⟨ra, hc⟩ | ⟨a, tg, hc⟩ |
      ⟨e, hc⟩ | ⟨d, m, mi, a, tg, hc⟩ | ⟨a, tg, mi, d, da, hc⟩ <;>
    rw [hc] at h <;>
    injection h with h1 h2 h3
  all_goals first
    | exact Except.noConfusion h1
    | (injection h1 with h1; subst h1;
       first
         | exact h2.symm
         | simp [ScaleResult.isScaled] at hs)

-- ========= CLAIM THEOREMS: CAPACITY CONTROLLER =========

/-- Claim C2: a `scaleToMeetBuffer` call at time `t` with
`t < lastScaleOutAt + cooldown` returns
`{scaled:false, reason:cooldown_active, retryAfterMs}` making no AutoScaling
call and leaving the state alone; consequently, after a call that scaled at
`t1`, any second call before `t1 + cooldown` returns `cooldown_active`
whatever its store (buffer unmet or not), group, or target. -/
theorem cooldown_enforcement :
    (∀ (target : Int) (g : Option AsgGroup) (s : Store) (last t : Int),
      t < last + SCALE_COOLDOWN_MS →
        scaleToMeetBuffer target g s last t =
          ⟨.ok (.cooldownActive (SCALE_COOLDOWN_MS - (t - last))), last, []⟩) ∧
    (∀ (target1 target2 : Int) (g1 g2 : Option AsgGroup) (s1 s2 : Store)
        (last t1 t2 last1 : Int) (res : ScaleResult) (calls1 : List FleetCall),
      scaleToMeetBuffer target1 g1 s1 last t1 = ⟨.ok res, last1, calls1⟩ →
      res.isScaled = true →
      t2 < t1 + SCALE_COOLDOWN_MS →
        scaleToMeetBuffer target2 g2 s2 last1 t2 =
          ⟨.ok (.cooldownActive (SCALE_COOLDOWN_MS - (t2 - t1))), t1, []⟩) := by
  constructor
  · exact fun target g s last t h => scale_eq_cooldown target g s last t h
  · intro target1 target2 g1 g2 s1 s2 last t1 t2 last1 res calls1 h hs h2
    have hlast : last1 = t1 :=
      scale_isScaled_last target1 g1 s1 last t1 last1 res calls1 h hs
    rw [hlast]
    exact scale_eq_cooldown target2 g2 s2 t1 t2 h2

/-- Witness for C2 at concrete inputs: a call 10s into the cooldown window
answers `cooldown_active` with 20s left; after a call that scaled out at
t=30s, a call at t=40s (buffer still unmet: empty pool, target 3) answers
`cooldown_active`. -/
theorem cooldown_enforcement_witness :
    scaleToMeetBuffer 2 none [] 0 10000 =
      ⟨.ok (.cooldownActive 20000), 0, []⟩ ∧
    scaleToMeetBuffer 3 none [] 30000 40000 =
      ⟨.ok (.cooldownActive 20000), 30000, []⟩ := by
  constructor
  · simpa using cooldown_enforcement.1 2 none [] 0 10000 (by decide)
  · simpa using cooldown_enforcement.2 1 3 (some ⟨some 0, some 5⟩) none [] []
      0 30000 40000 30000 (.scaledToMeetBuffer 0 1 1 0 1)
      [.describeGroups, .setDesiredCapacity 1] (by decide) (by decide) (by decide)

/-- Claim C10: `lastScaleOutAt` moves (to the call time) only on the `scaled:true`
path, which is also the only path issuing `SetDesiredCapacity` (right before
the update); every `scaled:false` outcome and every thrown error leaves
`lastScaleOutAt` unchanged. -/
theorem lastScaleOut_anchored_to_scaleOut :
    (∀ (target : Int) (g : Option AsgGroup) (s : Store) (last t last2 : Int)
        (res : ScaleResult) (calls : List FleetCall),
      scaleToMeetBuffer target g s last t = ⟨.ok res, last2, calls⟩ →
        (res.isScaled = false → last2 = last) ∧
        (res.isScaled = true → last2 = t ∧
          ∃ a tg mi d da, res = .scaledToMeetBuffer a tg mi d da ∧
            calls = [.describeGroups, .setDesiredCapacity da])) ∧
    (∀ (target : Int) (g : Option AsgGroup) (s : Store) (last t last2 : Int)
        (e : String) (calls : List FleetCall),
      scaleToMeetBuffer target g s last t = ⟨.error e, last2, calls⟩ →
        last2 = last) := by
  constructor
  · intro target g s last t last2 res calls h
    rcases scale_result_cases target g s last t with ⟨ra, hc⟩ | ⟨a, tg, hc⟩ |
        ⟨e, hc⟩ | ⟨d, m, mi, a, tg, hc⟩ | ⟨a, tg, mi, d, da, hc⟩ <;>
      rw [hc] at h <;>
      injection h with h1 h2 h3
    all_goals first
      | exact Except.noConfusion h1
      | (injection h1 with h1; subst h1; constructor
         all_goals first
           | (intro hs; simp [ScaleResult.isScaled] at hs; done)
           | (intro _; exact h2.symm)
           | (intro _; exact ⟨h2.symm, a, tg, mi, d, da, rfl, h3.symm⟩))
  · intro target g s last t last2 e calls h
    rcases scale_result_cases target g s last t with ⟨ra, hc⟩ | ⟨a, tg, hc⟩ |
        ⟨e', hc⟩ | ⟨d, m, mi, a, tg, hc⟩ | ⟨a, tg, mi, d, da, hc⟩ <;>
      rw [hc] at h <;>
      injection h with h1 h2 h3
    all_goals first
      | exact Except.noConfusion h1
      | exact h2.symm

/-- Witness for C10 at concrete inputs: a cooldown-gated call and an
ASG-not-found failure keep `lastScaleOutAt = 0`; a call that scales out at
t=30000 sets it to 30000, having issued exactly describe-then-set. -/
theorem lastScaleOut_anchored_witness :
    ((ScaleResult.cooldownActive 20000).isScaled = false → (0 : Int) = 0) ∧
    ((0 : Int) = 0) ∧
    ((30000 : Int) = 30000 ∧
      ∃ a tg mi d da,
        ScaleResult.scaledToMeetBuffer 0 1 1 0 1 =
          .scaledToMeetBuffer a tg mi d da ∧
        [FleetCall.describeGroups, FleetCall.setDesiredCapacity 1] =
          [.describeGroups, .setDesiredCapacity da]) := by
  refine ⟨?_, ?_, ?_⟩
  · exact (lastScaleOut_anchored_to_scaleOut.1 2 none [] 0 10000 0
      (.cooldownActive 20000) [] (by decide)).1
  · exact lastScaleOut_anchored_to_scaleOut.2 2 none [] 0 40000 0
      "ASG not found" [.describeGroups] (by decide)
  · exact (lastScaleOut_anchored_to_scaleOut.1 1 (some ⟨some 0, some 5⟩) [] 0
      30000 30000 (.scaledToMeetBuffer 0 1 1 0 1)
      [.describeGroups, .setDesiredCapacity 1] (by decide)).2 (by decide)

/-- Claim C3: off cooldown, `missing = targetAvailable − availableNow`; if
`missing ≤ 0` the call returns `buffer_satisfied` with no AutoScaling call;
otherwise it reads `{desired, max}` from the group and computes
`desiredAfter = min(desired + missing, max)`: equal to `desired` yields
`at_max_capacity` (with `desired`, `max`) and no capacity change, different
yields `SetDesiredCapacity desiredAfter` and
`{scaled:true, desiredBefore, desiredAfter}`.  Example:
`availableNow=0, target=2, desired=3, max=5` gives `missing=2`,
`desiredAfter=5`, `scaled:true`. -/
theorem buffer_math :
    (∀ (target : Int) (g : Option AsgGroup) (s : Store) (last t : Int),
      ¬ t < last + SCALE_COOLDOWN_MS →
      target - (countAvailableWorkers s t : Int) ≤ 0 →
        scaleToMeetBuffer target g s last t =
          ⟨.ok (.bufferSatisfied (countAvailableWorkers s t : Int) target), last, []⟩) ∧
    (∀ (target : Int) (g : AsgGroup) (s : Store) (last t : Int),
      ¬ t < last + SCALE_COOLDOWN_MS →
      ¬ target - (countAvailableWorkers s t : Int) ≤ 0 →
      min (g.desiredCapacity.getD 0 + (target - (countAvailableWorkers s t : Int)))
          (g.maxSize.getD (g.desiredCapacity.getD 0)) = g.desiredCapacity.getD 0 →
        scaleToMeetBuffer target (some g) s last t =
          ⟨.ok (.atMaxCapacity (g.desiredCapacity.getD 0)
            (g.maxSize.getD (g.desiredCapacity.getD 0))
            (target - (countAvailableWorkers s t : Int))
            (countAvailableWorkers s t : Int) target), last, [.describeGroups]⟩) ∧
    (∀ (target : Int) (g : AsgGroup) (s : Store) (last t : Int),
      ¬ t < last + SCALE_COOLDOWN_MS →
      ¬ target - (countAvailableWorkers s t : Int) ≤ 0 →
      ¬ min (g.desiredCapacity.getD 0 + (target - (countAvailableWorkers s t : Int)))
          (g.maxSize.getD (g.desiredCapacity.getD 0)) = g.desiredCapacity.getD 0 →
        scaleToMeetBuffer target (some g) s last t =
          ⟨.ok (.scaledToMeetBuffer (countAvailableWorkers s t : Int) target
            (target - (countAvailableWorkers s t : Int))
            (g.desiredCapacity.getD 0)
            (min (g.desiredCapacity.getD 0 + (target - (countAvailableWorkers s t : Int)))
              (g.maxSize.getD (g.desiredCapacity.getD 0)))), t,
            [.describeGroups, .setDesiredCapacity
              (min (g.desiredCapacity.getD 0 + (target - (countAvailableWorkers s t : Int)))
                (g.maxSize.getD (g.desiredCapacity.getD 0)))]⟩) ∧
    scaleToMeetBuffer 2 (some ⟨some 3, some 5⟩) [] 0 30000 =
      ⟨.ok (.scaledToMeetBuffer 0 2 2 3 5), 30000,
        [.describeGroups, .setDesiredCapacity 5]⟩ := by
  refine ⟨?_, ?_, ?_, by decide⟩
  · exact fun target g s last t h1 h2 => scale_eq_satisfied target g s last t h1 h2
  · exact fun target g s last t h1 h2 h3 => scale_eq_atMax target g s last t h1 h2 h3
  · exact fun target g s last t h1 h2 h3 => scale_eq_scaled target g s last t h1 h2 h3

/-- Witness for C3 at concrete inputs: a satisfied buffer (1 healthy worker,
target 1) stays put with no AutoScaling call; `desired=5, max=5, target=2`
short-circuits at max; the example of the spec scales 3 → 5. -/
theorem buffer_math_witness :
    scaleToMeetBuffer 1 none [⟨"i-1", none, none, some .available, some 30000, none, none⟩]
      0 30000 = ⟨.ok (.bufferSatisfied 1 1), 0, []⟩ ∧
    scaleToMeetBuffer 2 (some ⟨some 5, some 5⟩) [] 0 30000 =
      ⟨.ok (.atMaxCapacity 5 5 2 0 2), 0, [.describeGroups]⟩ ∧
    scaleToMeetBuffer 2 (some ⟨some 3, some 5⟩) [] 0 30000 =
      ⟨.ok (.scaledToMeetBuffer 0 2 2 3 5), 30000,
        [.describeGroups, .setDesiredCapacity 5]⟩ := by
  refine ⟨?_, ?_, ?_⟩
  · simpa using buffer_math.1 1 none
      [⟨"i-1", none, none, some .available, some 30000, none, none⟩] 0 30000
      (by decide) (by decide)
  · simpa using buffer_math.2.1 2 ⟨some 5, some 5⟩ [] 0 30000
      (by decide) (by decide) (by decide)
  · simpa using buffer_math.2.2.1 2 ⟨some 3, some 5⟩ [] 0 30000
      (by decide) (by decide) (by decide)

-- ========= CLAIM THEOREMS: HEALTH FILTER AND STORE =========

/-- Claim C6: health filtering is the pure predicate
`isHealthy(record, now) = (now − lastHeartbeat) ≤ HEARTBEAT_MAX_AGE`: an
`available` record is a claim candidate exactly when its heartbeat is
recent, and an `available` record whose heartbeat is older than the window
is excluded from the candidate list. -/
theorem liveness_filtering (s : Store) (r : WorkerRecord) (t h : Int)
    (hmem : r ∈ s) (hhb : r.lastHeartbeat = some h) :
    isHealthy r t = decide (t - h ≤ HEARTBEAT_MAX_AGE_MS) ∧
    (r ∈ healthyAvailable s t ↔
      (r.status = some WStatus.available ∧ t - h ≤ HEARTBEAT_MAX_AGE_MS)) ∧
    (r.status = some WStatus.available → ¬ t - h ≤ HEARTBEAT_MAX_AGE_MS →
      r ∉ healthyAvailable s t) := by
  refine ⟨by simp [isHealthy, hhb], ?_, ?_⟩
  · simp only [healthyAvailable, List.mem_filter, hmem, isHealthy, hhb,
      true_and, decide_eq_true_eq, Option.getD_some]
  · intro hav hstale hin
    have := List.mem_filter.mp hin
    rw [isHealthy, hhb] at this
    exact hstale (of_decide_eq_true (by simpa using this.2))

/-- Witness for C6: at t=100000 with a 60s window, an available worker that
heartbeated at 50000 is a candidate and one that heartbeated at 20000 is
not. -/
theorem liveness_filtering_witness :
    (⟨"a", none, none, some .available, some 50000, none, none⟩ : WorkerRecord) ∈
      healthyAvailable
        [⟨"a", none, none, some .available, some 50000, none, none⟩,
         ⟨"b", none, none, some .available, some 20000, none, none⟩] 100000 ∧
    (⟨"b", none, none, some .available, some 20000, none, none⟩ : WorkerRecord) ∉
      healthyAvailable
        [⟨"a", none, none, some .available, some 50000, none, none⟩,
         ⟨"b", none, none, some .available, some 20000, none, none⟩] 100000 := by
  constructor
  · exact (liveness_filtering _ _ 100000 50000 (by simp) rfl).2.1.mpr
      ⟨rfl, by decide⟩
  · exact (liveness_filtering _ _ 100000 20000 (by simp) rfl).2.2 rfl (by decide)

/-- Counterexample to claim C4: heartbeat for an id with no record does not fail and
does mutate the store — the unconditional update upserts a fresh item
holding only the key and `lastHeartbeat`, and the route answers ok. -/
theorem heartbeat_unknown_counterexample :
    heartbeatHandler [] "i-404" 1000 =
      (.ok, [{ instanceId := "i-404", lastHeartbeat := some 1000 }]) ∧
    findRec [] "i-404" = none ∧
    (heartbeatHandler [] "i-404" 1000).2 ≠ [] := by
  refine ⟨?_, rfl, by decide⟩
  rfl

/-- Amended claim C4: a heartbeat for an unknown id does not fail with NotFound;
the unconditional update creates a record containing only `instanceId` and
`lastHeartbeat = now` (appended to the table), and the call returns ok. -/
theorem heartbeat_unknown_upserts (s : Store) (id : String) (t : Int)
    (hid : id ≠ "") (hnone : findRec s id = none) :
    heartbeatHandler s id t =
      (.ok, s ++ [{ instanceId := id, lastHeartbeat := some t }]) := by
  unfold heartbeatHandler heartbeatOp
  rw [if_neg hid, hnone]

/-- Witness for the amended C4 statement at a concrete input. -/
theorem heartbeat_unknown_upserts_witness :
    heartbeatHandler [⟨"w", none, none, some .available, some 0, none, none⟩]
      "i-404" 1000 =
      (.ok, [⟨"w", none, none, some .available, some 0, none, none⟩,
        { instanceId := "i-404", lastHeartbeat := some 1000 }]) := by
  exact heartbeat_unknown_upserts
    [⟨"w", none, none, some .available, some 0, none, none⟩] "i-404" 1000
    (by decide) (by decide)

/-- Claim C9: releasing an id with no record does not fail with NotFound: the
unconditional update upserts an item holding only the key, `status =
available` and null `userId`/`leaseExpiry` (no heartbeat, no IPs), and the
route answers ok. -/
theorem release_unknown_upserts (s : Store) (id : String)
    (hid : id ≠ "") (hnone : findRec s id = none) :
    releaseHandler s id =
      (.ok, s ++ [{ instanceId := id, publicIp := none, privateIp := none,
                    status := some WStatus.available, lastHeartbeat := none,
                    userId := none, leaseExpiry := none }]) := by
  unfold releaseHandler releaseOp
  rw [if_neg hid, hnone]
  rfl

/-- Witness for C9 at a concrete input. -/
theorem release_unknown_upserts_witness :
    releaseHandler [⟨"w", none, none, some .leased, some 0, some "u1", some 7⟩]
      "i-404" =
      (.ok, [⟨"w", none, none, some .leased, some 0, some "u1", some 7⟩,
        ⟨"i-404", none, none, some .available, none, none, none⟩]) := by
  exact release_unknown_upserts
    [⟨"w", none, none, some .leased, some 0, some "u1", some 7⟩] "i-404"
    (by decide) (by decide)

/-- A successful key lookup returns a member carrying that key. -/
theorem findRec_some_id (s : Store) (id : String) (r : WorkerRecord)
    (h : findRec s id = some r) : r.instanceId = id ∧ r ∈ s := by
  induction s with
  | nil => simp [findRec] at h
  | cons a s ih =>
    rw [findRec_cons] at h
    by_cases ha : a.instanceId = id
    · rw [if_pos ha] at h
      injection h with h
      subst h
      exact ⟨ha, List.mem_cons_self a s⟩
    · rw [if_neg ha] at h
      rcases ih h with ⟨h1, h2⟩
      exact ⟨h1, List.mem_cons_of_mem a h2⟩

/-- Claim C7: for an existing record, release unconditionally sets
`status = available` and clears `userId`/`leaseExpiry` — no ownership check,
whatever user holds the lease — while `instanceId`, both IPs and
`lastHeartbeat` stay untouched, and every other record is untouched;
releasing an already-available (hence lease-free) worker changes nothing. -/
theorem release_spec (s : Store) (id : String) (r : WorkerRecord)
    (hkeys : (s.map WorkerRecord.instanceId).Nodup)
    (hfind : findRec s id = some r) :
    findRec (releaseOp s id) id = some
      { instanceId := r.instanceId, publicIp := r.publicIp,
        privateIp := r.privateIp, status := some WStatus.available,
        lastHeartbeat := r.lastHeartbeat, userId := none, leaseExpiry := none } ∧
    (∀ j, j ≠ id → findRec (releaseOp s id) j = findRec s j) ∧
    (r.status = some WStatus.available → r.userId = none → r.leaseExpiry = none →
      releaseOp s id = s) := by
  have hop : releaseOp s id = updateRec s id releaseFields := by
    unfold releaseOp; rw [hfind]
  have hf : ∀ x : WorkerRecord, x.instanceId = id → (releaseFields x).instanceId = id :=
    fun x hx => hx
  refine ⟨?_, ?_, ?_⟩
  · rw [hop, findRec_updateRec_self s id releaseFields hf, hfind]
    rfl
  · intro j hj
    rw [hop, findRec_updateRec_ne s id j releaseFields hf hj]
  · intro h1 h2 h3
    rw [hop]
    apply updateRec_eq_self
    intro x hx hxid
    have hrmem : r ∈ s := (findRec_some_id s id r hfind).2
    have hrid : r.instanceId = id := (findRec_some_id s id r hfind).1
    have hxr : x = r :=
      List.inj_on_of_nodup_map hkeys hx hrmem (by rw [hxid, hrid])
    subst hxr
    cases x with
    | mk a b c d e f g => simp_all [releaseFields]

/-- Witness for C7: releasing a clean available worker is a store-level
no-op; releasing a worker leased by `u9` clears the lease fields and keeps
its IPs and heartbeat. -/
theorem release_spec_witness :
    releaseOp [⟨"w", some "1.2.3.4", none, some .available, some 5, none, none⟩]
      "w" = [⟨"w", some "1.2.3.4", none, some .available, some 5, none, none⟩] ∧
    findRec (releaseOp
        [⟨"w", some "1.2.3.4", none, some .leased, some 5, some "u9", some 99⟩]
        "w") "w" =
      some ⟨"w", some "1.2.3.4", none, some .available, some 5, none, none⟩ := by
  constructor
  · exact (release_spec
      [⟨"w", some "1.2.3.4", none, some .available, some 5, none, none⟩] "w"
      ⟨"w", some "1.2.3.4", none, some .available, some 5, none, none⟩
      (by simp) (by decide)).2.2 rfl rfl rfl
  · simpa using (release_spec
      [⟨"w", some "1.2.3.4", none, some .leased, some 5, some "u9", some 99⟩] "w"
      ⟨"w", some "1.2.3.4", none, some .leased, some 5, some "u9", some 99⟩
      (by simp) (by decide)).1

/-- Claim C8: whatever record (if any) the table holds for the id — leased or not —
register answers ok and overwrites the whole item: `status = available`,
heartbeat = the call time, lease fields null, IPs as passed (empty string
normalized to null); other records are untouched, and re-registering is
idempotent up to the fresh heartbeat timestamp. -/
theorem register_overwrites (s : Store) (id : String) (pub priv : Option String)
    (t1 t2 : Int) (hid : id ≠ "") :
    (registerHandler s id pub priv t1).1 = SimpleResponse.ok ∧
    findRec (registerHandler s id pub priv t1).2 id = some
      { instanceId := id,
        publicIp := if pub = some "" then none else pub,
        privateIp := if priv = some "" then none else priv,
        status := some WStatus.available,
        lastHeartbeat := some t1,
        userId := none, leaseExpiry := none } ∧
    (∀ j, j ≠ id → findRec (registerHandler s id pub priv t1).2 j = findRec s j) ∧
    (∀ j, findRec (registerHandler (registerHandler s id pub priv t1).2
        id pub priv t2).2 j = findRec (registerHandler s id pub priv t2).2 j) := by
  have hreg : ∀ (x : Store) (tt : Int),
      registerHandler x id pub priv tt =
        (.ok, putRec x (registerRecord id pub priv tt)) := by
    intro x tt; unfold registerHandler; rw [if_neg hid]
  refine ⟨?_, ?_, ?_, ?_⟩
  · simp only [hreg]
  · simp only [hreg]
    exact findRec_putRec_self s (registerRecord id pub priv t1)
  · intro j hj
    simp only [hreg]
    exact findRec_putRec_ne s (registerRecord id pub priv t1) j hj
  · intro j
    simp only [hreg]
    by_cases hj : j = id
    · subst hj
      exact (findRec_putRec_self (putRec s (registerRecord j pub priv t1))
        (registerRecord j pub priv t2)).trans
        (findRec_putRec_self s (registerRecord j pub priv t2)).symm
    · calc
        findRec (putRec (putRec s (registerRecord id pub priv t1))
            (registerRecord id pub priv t2)) j
            = findRec (putRec s (registerRecord id pub priv t1)) j :=
          findRec_putRec_ne _ (registerRecord id pub priv t2) j hj
        _ = findRec s j := findRec_putRec_ne s (registerRecord id pub priv t1) j hj
        _ = findRec (putRec s (registerRecord id pub priv t2)) j :=
          (findRec_putRec_ne s (registerRecord id pub priv t2) j hj).symm

/-- Witness for C8: registering an id currently leased by `u9` overwrites it
to a fresh available record; a second registration gives the same lookups. -/
theorem register_overwrites_witness :
    (registerHandler [⟨"w", some "9.9.9.9", none, some .leased, some 5, some "u9", some 99⟩]
      "w" (some "1.2.3.4") none 70000).1 = SimpleResponse.ok ∧
    findRec (registerHandler
        [⟨"w", some "9.9.9.9", none, some .leased, some 5, some "u9", some 99⟩]
        "w" (some "1.2.3.4") none 70000).2 "w" =
      some ⟨"w", some "1.2.3.4", none, some .available, some 70000, none, none⟩ := by
  have h := register_overwrites
    [⟨"w", some "9.9.9.9", none, some .leased, some 5, some "u9", some 99⟩]
    "w" (some "1.2.3.4") none 70000 80000 (by decide)
  exact ⟨h.1, by simpa using h.2.1⟩

-- ========= CLAIM THEOREMS: LEASE ALLOCATOR =========

/-- With a non-empty candidate list, `/claim` reduces to the conditional
update on the head candidate. -/
theorem claimHandler_cons (target : Int) (group? : Option AsgGroup)
    (sScan sWrite : Store) (last : Int) (u : String) (t : Int)
    (chosen : WorkerRecord) (rest : Store)
    (hu : u ≠ "") (hscan : healthyAvailable sScan t = chosen :: rest) :
    claimHandler target group? sScan sWrite last u t =
      match tryTransition sWrite chosen.instanceId .available
          (leaseFields u (t + LEASE_TTL_MS)) with
      | .ok s2 => ⟨.claimed chosen.instanceId chosen.publicIp chosen.privateIp
          (t + LEASE_TTL_MS) (connectionHint chosen.publicIp), s2, last⟩
      | .error _ => ⟨.conflict, sWrite, last⟩ := by
  unfold claimHandler
  rw [if_neg hu, hscan]

/-- Claim C1: the chosen worker moves to `leased` iff its `status` is still
`available` at write time: then the one conditional update sets `status`,
`userId` and `leaseExpiry` together (nothing else on that record, no other
record); if the precondition fails — the record is gone or no longer
`available` because another claim won since the scan — the route answers a
retryable 409 Conflict and the write changes nothing at all. -/
theorem claim_conditional (target : Int) (group? : Option AsgGroup)
    (sScan sWrite : Store) (last : Int) (u : String) (t : Int)
    (chosen : WorkerRecord) (rest : Store)
    (hu : u ≠ "") (hscan : healthyAvailable sScan t = chosen :: rest) :
    (∀ r, findRec sWrite chosen.instanceId = some r →
      r.status = some WStatus.available →
        claimHandler target group? sScan sWrite last u t =
          ⟨.claimed chosen.instanceId chosen.publicIp chosen.privateIp
              (t + LEASE_TTL_MS) (connectionHint chosen.publicIp),
            updateRec sWrite chosen.instanceId (leaseFields u (t + LEASE_TTL_MS)),
            last⟩ ∧
        findRec (updateRec sWrite chosen.instanceId
            (leaseFields u (t + LEASE_TTL_MS))) chosen.instanceId = some
          { instanceId := r.instanceId, publicIp := r.publicIp,
            privateIp := r.privateIp, status := some WStatus.leased,
            lastHeartbeat := r.lastHeartbeat, userId := some u,
            leaseExpiry := some (t + LEASE_TTL_MS) } ∧
        (∀ j, j ≠ chosen.instanceId →
          findRec (updateRec sWrite chosen.instanceId
            (leaseFields u (t + LEASE_TTL_MS))) j = findRec sWrite j)) ∧
    (statusOf sWrite chosen.instanceId ≠ some WStatus.available →
        claimHandler target group? sScan sWrite last u t =
          ⟨.conflict, sWrite, last⟩ ∧
        ClaimResponse.httpStatus .conflict = 409) := by
  have hcons := claimHandler_cons target group? sScan sWrite last u t chosen rest hu hscan
  have hf : ∀ x : WorkerRecord, x.instanceId = chosen.instanceId →
      (leaseFields u (t + LEASE_TTL_MS) x).instanceId = chosen.instanceId :=
    fun x hx => hx
  constructor
  · intro r hr hst
    have htt : tryTransition sWrite chosen.instanceId .available
        (leaseFields u (t + LEASE_TTL_MS)) =
        .ok (updateRec sWrite chosen.instanceId (leaseFields u (t + LEASE_TTL_MS))) := by
      unfold tryTransition
      rw [hr]
      simp [hst]
    refine ⟨?_, ?_, ?_⟩
    · rw [hcons, htt]
    · rw [findRec_updateRec_self sWrite chosen.instanceId _ hf, hr]
      rfl
    · intro j hj
      exact findRec_updateRec_ne sWrite chosen.instanceId j _ hf hj
  · intro hne
    have htt : tryTransition sWrite chosen.instanceId .available
        (leaseFields u (t + LEASE_TTL_MS)) = .error () := by
      cases hr : findRec sWrite chosen.instanceId with
      | none => unfold tryTransition; rw [hr]
      | some r =>
        have hst : r.status ≠ some WStatus.available := fun hst =>
          hne (by simp [statusOf, hr, hst])
        unfold tryTransition
        rw [hr]
        simp [hst]
    exact ⟨by rw [hcons, htt], rfl⟩

/-- Witness for C1: the scan sees worker `i-1` available, but at write time
it is already leased by `u2` — the claim answers 409 Conflict and the store
is untouched; with the same store at write time, the claim succeeds and
leases `i-1` to `u1`. -/
theorem claim_conditional_witness :
    (claimHandler 2 none
      [⟨"i-1", some "1.2.3.4", none, some .available, some 0, none, none⟩]
      [⟨"i-1", some "1.2.3.4", none, some .leased, some 0, some "u2", some 9⟩]
      0 "u1" 5 =
      ⟨.conflict,
        [⟨"i-1", some "1.2.3.4", none, some .leased, some 0, some "u2", some 9⟩],
        0⟩ ∧
      ClaimResponse.httpStatus .conflict = 409) ∧
    claimHandler 2 none
      [⟨"i-1", some "1.2.3.4", none, some .available, some 0, none, none⟩]
      [⟨"i-1", some "1.2.3.4", none, some .available, some 0, none, none⟩]
      0 "u1" 5 =
      ⟨.claimed "i-1" (some "1.2.3.4") none (5 + LEASE_TTL_MS)
          (connectionHint (some "1.2.3.4")),
        [⟨"i-1", some "1.2.3.4", none, some .leased, some 0, some "u1",
          some (5 + LEASE_TTL_MS)⟩], 0⟩ := by
  constructor
  · exact (claim_conditional 2 none
      [⟨"i-1", some "1.2.3.4", none, some .available, some 0, none, none⟩]
      [⟨"i-1", some "1.2.3.4", none, some .leased, some 0, some "u2", some 9⟩]
      0 "u1" 5
      ⟨"i-1", some "1.2.3.4", none, some .available, some 0, none, none⟩ []
      (by decide) (by decide)).2 (by decide)
  · have h := (claim_conditional 2 none
      [⟨"i-1", some "1.2.3.4", none, some .available, some 0, none, none⟩]
      [⟨"i-1", some "1.2.3.4", none, some .available, some 0, none, none⟩]
      0 "u1" 5
      ⟨"i-1", some "1.2.3.4", none, some .available, some 0, none, none⟩ []
      (by decide) (by decide)).1
      ⟨"i-1", some "1.2.3.4", none, some .available, some 0, none, none⟩
      (by decide) rfl
    rw [h.1]
    rfl

/-- Claim C5: a successful claim answers the `instanceId`, IPs and
connection hint with `leaseExpiry = claim time + LEASE_TTL_MS`, and the
store afterwards shows that worker `leased` by the claimant with that
expiry (identity, IPs and heartbeat unchanged). -/
theorem claim_success (target : Int) (group? : Option AsgGroup) (s : Store)
    (last : Int) (u : String) (t : Int) (chosen : WorkerRecord) (rest : Store)
    (hu : u ≠ "") (hkeys : (s.map WorkerRecord.instanceId).Nodup)
    (hscan : healthyAvailable s t = chosen :: rest) :
    claimHandler target group? s s last u t =
      ⟨.claimed chosen.instanceId chosen.publicIp chosen.privateIp
          (t + LEASE_TTL_MS) (connectionHint chosen.publicIp),
        updateRec s chosen.instanceId (leaseFields u (t + LEASE_TTL_MS)), last⟩ ∧
    findRec (updateRec s chosen.instanceId (leaseFields u (t + LEASE_TTL_MS)))
        chosen.instanceId = some
      { instanceId := chosen.instanceId, publicIp := chosen.publicIp,
        privateIp := chosen.privateIp, status := some WStatus.leased,
        lastHeartbeat := chosen.lastHeartbeat, userId := some u,
        leaseExpiry := some (t + LEASE_TTL_MS) } := by
  have hf : ∀ x : WorkerRecord, x.instanceId = chosen.instanceId →
      (leaseFields u (t + LEASE_TTL_MS) x).instanceId = chosen.instanceId :=
    fun x hx => hx
  have hmem2 : chosen ∈ healthyAvailable s t := by
    rw [hscan]; exact List.mem_cons_self chosen rest
  have hmem3 := List.mem_filter.mp hmem2
  have hmem : chosen ∈ s := (List.mem_filter.mp hmem3.1).1
  have hav : chosen.status = some WStatus.available :=
    of_decide_eq_true (List.mem_filter.mp hmem3.1).2
  have hfind : findRec s chosen.instanceId = some chosen :=
    findRec_eq_of_mem_nodup hkeys hmem
  have htt : tryTransition s chosen.instanceId .available
      (leaseFields u (t + LEASE_TTL_MS)) =
      .ok (updateRec s chosen.instanceId (leaseFields u (t + LEASE_TTL_MS))) := by
    unfold tryTransition
    rw [hfind]
    simp [hav]
  constructor
  · rw [claimHandler_cons target group? s s last u t chosen rest hu hscan, htt]
  · rw [findRec_updateRec_self s chosen.instanceId _ hf, hfind]
    rfl

/-- Witness for C5: register sole worker `i-1` at t=0, then claim as `u1` at
t=5 — the response carries its IPs and `leaseExpiry = 5 + LEASE_TTL_MS`,
and the store then shows it leased by `u1`. -/
theorem claim_success_witness :
    claimHandler 2 none
      (registerHandler [] "i-1" (some "1.2.3.4") (some "10.0.0.1") 0).2
      (registerHandler [] "i-1" (some "1.2.3.4") (some "10.0.0.1") 0).2
      0 "u1" 5 =
      ⟨.claimed "i-1" (some "1.2.3.4") (some "10.0.0.1") (5 + LEASE_TTL_MS)
          (connectionHint (some "1.2.3.4")),
        [⟨"i-1", some "1.2.3.4", some "10.0.0.1", some .leased, some 0,
          some "u1", some (5 + LEASE_TTL_MS)⟩], 0⟩ ∧
    findRec (claimHandler 2 none
      (registerHandler [] "i-1" (some "1.2.3.4") (some "10.0.0.1") 0).2
      (registerHandler [] "i-1" (some "1.2.3.4") (some "10.0.0.1") 0).2
      0 "u1" 5).store "i-1" =
      some ⟨"i-1", some "1.2.3.4", some "10.0.0.1", some .leased, some 0,
        some "u1", some (5 + LEASE_TTL_MS)⟩ := by
  have h := claim_success 2 none
    (registerHandler [] "i-1" (some "1.2.3.4") (some "10.0.0.1") 0).2
    0 "u1" 5
    ⟨"i-1", some "1.2.3.4", some "10.0.0.1", some .available, some 0, none, none⟩
    [] (by decide) (by decide) (by decide)
  constructor
  · rw [h.1]
    rfl
  · rw [h.1]
    rfl

end MachineClaimer
